import Mathlib

/-!
Verification of the USB-PD sink subsystem of this firmware.

The Rust source is shallowly embedded: every packed register or wire
message (produced by the `bitfield` macro in the source) is represented
by its raw unsigned integer, a `Nat`, together with getter and setter
functions for each declared bit range; machine-integer truncation is
made explicit with `% 2^w`.  Stateful driver code is embedded as pure
state-passing functions, and fallible code returns `Except Error`.
-/

/-- `Error` from `src/error.rs`, restricted to the variants reachable in
the PD core (bus errors are parameters of the model, not modelled
variants, since the claims quantify over bus-failure-free executions). -/
inductive Error where
  | SoftResetFailure
  | InvalidDeviceId
  | NoCcDetected
  | Index
deriving DecidableEq, Repr

/-- Read the `w`-bit field at bit offset `off` of raw value `raw`.
This is the semantics of a `bitfield`-generated getter. -/
def getBits (raw off w : Nat) : Nat := raw / 2 ^ off % 2 ^ w

/-- Overwrite the `w`-bit field at bit offset `off` of `raw` with `v`
(masked to `w` bits).  This is the semantics of a `bitfield`-generated
`with_*` setter: the written value is truncated to the declared width. -/
def setBits (raw off w v : Nat) : Nat :=
  raw % 2 ^ off + 2 ^ off * (v % 2 ^ w) + 2 ^ (off + w) * (raw / 2 ^ (off + w))

namespace Header

/-! `Header` from `src/pd/proto.rs`: a 16-bit value with fields
(LSB first) message_type:5, data_rate:1, spec_revision:2,
port_power_role:1, message_id:3, num_data_objects:3, extended:1. -/

def new : Nat := 0

def message_type (raw : Nat) : Nat := getBits raw 0 5
def data_rate (raw : Nat) : Bool := getBits raw 5 1 = 1
def spec_revision (raw : Nat) : Nat := getBits raw 6 2
def port_power_role (raw : Nat) : Bool := getBits raw 8 1 = 1
def message_id (raw : Nat) : Nat := getBits raw 9 3
def num_data_objects (raw : Nat) : Nat := getBits raw 12 3
def extended (raw : Nat) : Bool := getBits raw 15 1 = 1

def with_message_type (raw v : Nat) : Nat := setBits raw 0 5 v
def with_data_rate (raw : Nat) (v : Bool) : Nat := setBits raw 5 1 v.toNat
def with_spec_revision (raw v : Nat) : Nat := setBits raw 6 2 v
def with_port_power_role (raw : Nat) (v : Bool) : Nat := setBits raw 8 1 v.toNat
def with_message_id (raw v : Nat) : Nat := setBits raw 9 3 v
def with_num_data_objects (raw v : Nat) : Nat := setBits raw 12 3 v
def with_extended (raw : Nat) (v : Bool) : Nat := setBits raw 15 1 v.toNat

/-- Build a header from all seven fields, as the `with_*` chain from
`Header::new()` does. -/
def build (mt : Nat) (dr : Bool) (sr : Nat) (ppr : Bool) (mid ndo : Nat)
    (ext : Bool) : Nat :=
  with_extended
    (with_num_data_objects
      (with_message_id
        (with_port_power_role
          (with_spec_revision (with_data_rate (with_message_type new mt) dr) sr)
          ppr)
        mid)
      ndo)
    ext

end Header

namespace FixedSupplyPdo

/-! `FixedSupplyPdo` from `src/pd/proto.rs`: a 32-bit value with fields
(LSB first) raw_max_current:10, raw_voltage:10, peak_current:2,
_reserved:1, epr_mode_capable:1, unchunked_extended_messages_supported:1,
dual_role_data:1, usb_communications_capable:1, unconstrainted_power:1,
usb_suspend_supporrted:1, dual_role_power:1, pdo_type:2. -/

def new : Nat := 0

def raw_max_current (raw : Nat) : Nat := getBits raw 0 10
def raw_voltage (raw : Nat) : Nat := getBits raw 10 10
def peak_current (raw : Nat) : Nat := getBits raw 20 2
def epr_mode_capable (raw : Nat) : Bool := getBits raw 23 1 = 1
def unchunked_extended_messages_supported (raw : Nat) : Bool := getBits raw 24 1 = 1
def dual_role_data (raw : Nat) : Bool := getBits raw 25 1 = 1
def usb_communications_capable (raw : Nat) : Bool := getBits raw 26 1 = 1
def unconstrainted_power (raw : Nat) : Bool := getBits raw 27 1 = 1
def usb_suspend_supporrted (raw : Nat) : Bool := getBits raw 28 1 = 1
def dual_role_power (raw : Nat) : Bool := getBits raw 29 1 = 1
def pdo_type (raw : Nat) : Nat := getBits raw 30 2

def with_raw_max_current (raw v : Nat) : Nat := setBits raw 0 10 v
def with_raw_voltage (raw v : Nat) : Nat := setBits raw 10 10 v
def with_peak_current (raw v : Nat) : Nat := setBits raw 20 2 v
def with_epr_mode_capable (raw : Nat) (v : Bool) : Nat := setBits raw 23 1 v.toNat
def with_unchunked_extended_messages_supported (raw : Nat) (v : Bool) : Nat :=
  setBits raw 24 1 v.toNat
def with_dual_role_data (raw : Nat) (v : Bool) : Nat := setBits raw 25 1 v.toNat
def with_usb_communications_capable (raw : Nat) (v : Bool) : Nat := setBits raw 26 1 v.toNat
def with_unconstrainted_power (raw : Nat) (v : Bool) : Nat := setBits raw 27 1 v.toNat
def with_usb_suspend_supporrted (raw : Nat) (v : Bool) : Nat := setBits raw 28 1 v.toNat
def with_dual_role_power (raw : Nat) (v : Bool) : Nat := setBits raw 29 1 v.toNat
def with_pdo_type (raw v : Nat) : Nat := setBits raw 30 2 v

/-- `FixedSupplyPdo::max_current`: `raw_max_current * 10` (mA).  The u32
arithmetic cannot overflow (raw fields are 10 bits), so `Nat` is exact. -/
def max_current (raw : Nat) : Nat := raw_max_current raw * 10

/-- `FixedSupplyPdo::voltage`: `raw_voltage * 50` (mV). -/
def voltage (raw : Nat) : Nat := raw_voltage raw * 50

/-- `FixedSupplyPdo::power`: `voltage * max_current / 1000` (mW); the
product is at most 51150 * 10230 < 2^32, so u32 never overflows and
`Nat` division matches the truncating u32 division. -/
def power (raw : Nat) : Nat := voltage raw * max_current raw / 1000

end FixedSupplyPdo

namespace FixedVariableSupplyRequest

/-! `FixedVariableSupplyRequest` from `src/pd/proto.rs`: a 32-bit value
with fields (LSB first) raw_min_operating_current:10,
raw_operating_current:10, _reserved:2, erp_mode_capable:1,
unchuncked_extended_messages_supported:1, no_usb_suspend:1,
usb_communications_capable:1, capability_mismatch:1, give_back:1,
object_position:4. -/

def new : Nat := 0

def raw_min_operating_current (raw : Nat) : Nat := getBits raw 0 10
def raw_operating_current (raw : Nat) : Nat := getBits raw 10 10
def erp_mode_capable (raw : Nat) : Bool := getBits raw 22 1 = 1
def unchuncked_extended_messages_supported (raw : Nat) : Bool := getBits raw 23 1 = 1
def no_usb_suspend (raw : Nat) : Bool := getBits raw 24 1 = 1
def usb_communications_capable (raw : Nat) : Bool := getBits raw 25 1 = 1
def capability_mismatch (raw : Nat) : Bool := getBits raw 26 1 = 1
def give_back (raw : Nat) : Bool := getBits raw 27 1 = 1
def object_position (raw : Nat) : Nat := getBits raw 28 4

def with_raw_min_operating_current (raw v : Nat) : Nat := setBits raw 0 10 v
def with_raw_operating_current (raw v : Nat) : Nat := setBits raw 10 10 v
def with_no_usb_suspend (raw : Nat) (v : Bool) : Nat := setBits raw 24 1 v.toNat
def with_object_position (raw v : Nat) : Nat := setBits raw 28 4 v

/-- `with_operating_current`: mA value divided by 10 and cast `as u16`
(truncation modulo 2^16) before the 10-bit field write. -/
def with_operating_current (raw val : Nat) : Nat :=
  with_raw_operating_current raw (val / 10 % 65536)

/-- `with_min_operating_current`: same conversion for the minimum field. -/
def with_min_operating_current (raw val : Nat) : Nat :=
  with_raw_min_operating_current raw (val / 10 % 65536)

end FixedVariableSupplyRequest

/-- `RxTokenType` from `src/pd/fusb302.rs`: the eight 3-bit receive
token kinds. -/
inductive RxTokenType where
  | Reserved0
  | Reserved1
  | Reserved2
  | Sop2Db
  | Sop1Db
  | Sop2
  | Sop1
  | Sop
deriving DecidableEq, Repr

namespace RxTokenType

/-- The `#[repr(u8)]` discriminant of each variant. -/
def toU8 : RxTokenType → Nat
  | .Reserved0 => 0
  | .Reserved1 => 1
  | .Reserved2 => 2
  | .Sop2Db => 3
  | .Sop1Db => 4
  | .Sop2 => 5
  | .Sop1 => 6
  | .Sop => 7

/-- `impl From<u8> for RxTokenType`: `transmute(value & 0b111)` — the low
3 bits of the input select the variant with that discriminant; the 3-bit
domain is fully enumerated. -/
def fromU8 (value : Nat) : RxTokenType :=
  if value % 8 = 0 then .Reserved0
  else if value % 8 = 1 then .Reserved1
  else if value % 8 = 2 then .Reserved2
  else if value % 8 = 3 then .Sop2Db
  else if value % 8 = 4 then .Sop1Db
  else if value % 8 = 5 then .Sop2
  else if value % 8 = 6 then .Sop1
  else .Sop

end RxTokenType

namespace RxToken

/-- `RxToken` from `src/pd/fusb302.rs`: `_reserved:5, token:3`, so the
`token` field occupies bits 7:5 of the FIFO byte; the getter feeds the
extracted field through `RxTokenType::from`. -/
def token (raw : Nat) : RxTokenType := RxTokenType.fromU8 (getBits raw 5 3)

end RxToken

/-- `Pd::fusb_read_id` from `src/pd/mod.rs`, as a function of the byte
read from the `DeviceId` register: `0x00` and `0xff` are rejected with
`Error::InvalidDeviceId`, everything else is accepted. -/
def fusb_read_id (val : Nat) : Except Error Nat :=
  if val = 0 ∨ val = 0xff then .error .InvalidDeviceId else .ok val

namespace Switches0

/-! `Switches0` from `src/pd/fusb302.rs`: bits (LSB first) pdwn1, pdwn2,
meas_cc1, meas_cc2, vconn_cc1, vconn_cc2, pu_en1, pu_en2. -/

def new : Nat := 0

def pdwn1 (raw : Nat) : Bool := getBits raw 0 1 = 1
def pdwn2 (raw : Nat) : Bool := getBits raw 1 1 = 1
def meas_cc1 (raw : Nat) : Bool := getBits raw 2 1 = 1
def meas_cc2 (raw : Nat) : Bool := getBits raw 3 1 = 1

def with_pdwn1 (raw : Nat) (v : Bool) : Nat := setBits raw 0 1 v.toNat
def with_pdwn2 (raw : Nat) (v : Bool) : Nat := setBits raw 1 1 v.toNat
def with_meas_cc1 (raw : Nat) (v : Bool) : Nat := setBits raw 2 1 v.toNat
def with_meas_cc2 (raw : Nat) (v : Bool) : Nat := setBits raw 3 1 v.toNat

end Switches0

namespace Switches1

/-! `Switches1` from `src/pd/fusb302.rs`: bits (LSB first) txcc1, txcc2,
auto_crc, _reserved, data_role, spec_rev:2, power_role. -/

def new : Nat := 0

def txcc1 (raw : Nat) : Bool := getBits raw 0 1 = 1
def txcc2 (raw : Nat) : Bool := getBits raw 1 1 = 1
def auto_crc (raw : Nat) : Bool := getBits raw 2 1 = 1
def spec_rev (raw : Nat) : Nat := getBits raw 5 2

def with_txcc1 (raw : Nat) (v : Bool) : Nat := setBits raw 0 1 v.toNat
def with_txcc2 (raw : Nat) (v : Bool) : Nat := setBits raw 1 1 v.toNat
def with_auto_crc (raw : Nat) (v : Bool) : Nat := setBits raw 2 1 v.toNat
def with_spec_rev (raw v : Nat) : Nat := setBits raw 5 2 v

end Switches1

/-- `Pd::detect_cc_line` from `src/pd/mod.rs`, as a function of the two
`bc_lvl` comparator readings.  Equal readings fail with `NoCcDetected`;
otherwise the driver writes `Switches0` (termination/measurement) and
`Switches1` (transmission, auto-CRC, spec rev 1.0) selecting the line
with the strictly greater reading.  The register writes that do not
depend on the readings (the `Measure` reset and the two sampling writes)
are not part of the returned value; the result is the pair of final
`(Switches0, Switches1)` raw values written on success. -/
def detect_cc_line (cc1_val cc2_val : Nat) : Except Error (Nat × Nat) :=
  if cc1_val = cc2_val then .error .NoCcDetected
  else
    let use_cc1 := decide (cc1_val > cc2_val)
    let use_cc2 := decide (cc2_val > cc1_val)
    let switches0 :=
      Switches0.with_meas_cc2
        (Switches0.with_meas_cc1
          (Switches0.with_pdwn2 (Switches0.with_pdwn1 Switches0.new true) true)
          use_cc1)
        use_cc2
    let switches1 :=
      Switches1.with_spec_rev
        (Switches1.with_auto_crc
          (Switches1.with_txcc2 (Switches1.with_txcc1 Switches1.new use_cc1) use_cc2)
          true)
        0
    .ok (switches0, switches1)

/-- The identity-poll loop of `Pd::fusb_setup` (`src/pd/mod.rs`): after
the soft reset, `retries` starts at 5; each iteration performs one
`fusb_read_id` (attempt `k` reads byte `reads k`), breaks on success,
decrements `retries` and fails with `SoftResetFailure` when it reaches 0.
The `0` fuel case mirrors the unreachable u8 underflow (the loop is only
entered with `retries = 5`). -/
def id_poll (reads : Nat → Nat) : Nat → Nat → Except Error Nat
  | 0, _ => .error .SoftResetFailure
  | 1, k =>
    if (fusb_read_id (reads k)).isOk then .ok (reads k)
    else .error .SoftResetFailure
  | r + 2, k =>
    if (fusb_read_id (reads k)).isOk then .ok (reads k)
    else id_poll reads (r + 1) (k + 1)

/-- The identity-poll phase of `Pd::fusb_setup`: 5 retries, starting at
attempt 0. -/
def fusb_setup_poll (reads : Nat → Nat) : Except Error Nat := id_poll reads 5 0

/-! Transmit message buffer (`Fusb302MessageBuffer`, `src/pd/fusb302.rs`):
`MESSAGE_BUFFER_SIZE = 1 (register addr) + 2 (header) + 7*4 = 31` bytes;
`len` starts at 3 (register address plus header). -/

def MESSAGE_BUFFER_SIZE : Nat := 1 + 2 + 7 * 4

structure Fusb302MessageBuffer where
  buffer : List Nat
  len : Nat
deriving DecidableEq, Repr

namespace Fusb302MessageBuffer

/-- `Fusb302MessageBuffer::new`: byte 0 is the FIFOs register address
(0x43), the rest zero, `len = 3`. -/
def new : Fusb302MessageBuffer :=
  { buffer := 0x43 :: List.replicate 30 0, len := 3 }

/-- `write_header`: store the 16-bit header little-endian at bytes 1..2. -/
def write_header (b : Fusb302MessageBuffer) (header : Nat) : Fusb302MessageBuffer :=
  { b with buffer := (b.buffer.set 1 (header % 256)).set 2 (header / 256 % 256) }

/-- `write_data`: append one 32-bit object little-endian at `len`; fails
with `Error::Index`, mutating nothing, when `len + 4` would exceed
`MESSAGE_BUFFER_SIZE`.  The second component is the buffer after the
call (unchanged in the error case, as in the source, which returns
before any write). -/
def write_data (b : Fusb302MessageBuffer) (object : Nat) :
    Except Error Unit × Fusb302MessageBuffer :=
  if b.len + 4 > MESSAGE_BUFFER_SIZE then (.error .Index, b)
  else
    (.ok (),
      { buffer :=
          ((((b.buffer.set b.len (object % 256)).set (b.len + 1)
              (object / 256 % 256)).set (b.len + 2)
              (object / 65536 % 256)).set (b.len + 3)
              (object / 16777216 % 256)),
        len := b.len + 4 })

end Fusb302MessageBuffer

/-- `u32::from_le_bytes` on a 4-byte chunk (bytes < 256). -/
def u32_from_le_bytes (l : List Nat) : Nat :=
  l.getD 0 0 + 256 * l.getD 1 0 + 65536 * l.getD 2 0 + 16777216 * l.getD 3 0

/-- The receive-framing loop of `Pd::handle_new_data` (`src/pd/mod.rs`),
over the receive-FIFO byte stream; the `rx_empty` status bit is modelled
as emptiness of the remaining stream.  Each iteration pulls one token
byte; a token whose `RxToken::token` field (bits 7:5) is not `Sop` is
skipped.  On `Sop` the loop reads a 2-byte little-endian header, then
`num_data_objects * 4` payload bytes (none when the count is zero), then
reads and discards the 4-byte CRC, and dispatches the (header, payload)
message.  A FIFO underrun (stream shorter than a read) yields zero
bytes, mirroring the zero-initialised read buffers. -/
def rx_framing : List Nat → List (Nat × List Nat)
  | [] => []
  | t :: rest =>
    if RxToken.token t = RxTokenType.Sop then
      let header := rest.getD 0 0 + 256 * rest.getD 1 0
      let n := Header.num_data_objects header
      let payload := (rest.drop 2).take (n * 4) ++
        List.replicate (n * 4 - (rest.drop 2).length) 0
      (header, payload) :: rx_framing (rest.drop (2 + n * 4 + 4))
    else
      rx_framing rest
termination_by s => s.length
decreasing_by
  all_goals simp [List.length_drop]
  all_goals omega

/-- One step of the selection fold in `Pd::handle_source_capabilities`:
keep the running `(selected_pdo, power)` unless the offer at `index`
has voltage at most 18000 mV and strictly greater computed power. -/
def select_pdo_step (acc : Nat × Nat) (ipdo : Nat × Nat) : Nat × Nat :=
  if FixedSupplyPdo.voltage ipdo.2 ≤ 18000 ∧ FixedSupplyPdo.power ipdo.2 > acc.2 then
    (ipdo.1, FixedSupplyPdo.power ipdo.2)
  else
    (acc.1, acc.2)

/-- The selection fold of `Pd::handle_source_capabilities`:
`enumerate().fold((0, 0), ...)` over the decoded offer list. -/
def select_pdo (pdos : List Nat) : Nat × Nat :=
  (pdos.enum).foldl select_pdo_step (0, 0)

/-- `array_chunks::<4>` over the payload bytes: complete 4-byte chunks,
any shorter remainder discarded. -/
def array_chunks4 : List Nat → List (List Nat)
  | a :: b :: c :: d :: rest => [a, b, c, d] :: array_chunks4 rest
  | _ => []

/-- The decode phase of `Pd::handle_source_capabilities`: each 4-byte
little-endian chunk of the payload becomes one `FixedSupplyPdo`. -/
def decode_pdos (payload : List Nat) : List Nat :=
  (array_chunks4 payload).map u32_from_le_bytes

/-- The store fold of `Pd::handle_source_capabilities`: write each
decoded offer into the session's 7-slot array at the running count,
returning the new count (offers beyond slot 7 would panic in the
source; the header's 3-bit object count keeps the count at most 7). -/
def store_pdos (pdos : List Nat) (decoded : List Nat) : Nat × List Nat :=
  decoded.foldl (fun acc pdo => (acc.1 + 1, acc.2.set acc.1 pdo)) (0, pdos)

/-- The session state owned by the PD engine (`struct Pd`,
`src/pd/mod.rs`), restricted to the fields `handle_source_capabilities`
touches: the 7-slot offer array, the offer count and the outgoing
message-ID counter. -/
structure PdSession where
  pdos : List Nat
  num_pdos : Nat
  message_id : Nat
deriving DecidableEq, Repr

/-- `Pd::new` initialises the offer array to default (zero) PDOs, the
count to 0 and the message-ID counter to 0. -/
def PdSession.new : PdSession :=
  { pdos := List.replicate 7 0, num_pdos := 0, message_id := 0 }

/-- `DataMessageType::Request as u8`. -/
def DataMessageType_Request : Nat := 2

/-- `Pd::handle_source_capabilities` (`src/pd/mod.rs`): decode the
payload into fixed-supply offers, overwrite the session's offer list,
run the selection fold, build the request header (message type Request,
spec revision 2, current message ID, one data object), bump the
message-ID counter (`(id + 1) & 0b111`; the `& 0b111` makes the u8
addition equivalent to `% 8`), build the request object from the
selected offer and write it into a fresh transmit buffer.  Returns the
new session, the transmitted buffer, and the fold's
`(selected_pdo, power)`. -/
def handle_source_capabilities (s : PdSession) (payload : List Nat) :
    Except Error (PdSession × Fusb302MessageBuffer × Nat × Nat) :=
  let stored := store_pdos s.pdos (decode_pdos payload)
  let num_pdos := stored.1
  let pdos := stored.2
  let sel := select_pdo (pdos.take num_pdos)
  let selected_pdo := sel.1
  let power := sel.2
  let header :=
    Header.with_num_data_objects
      (Header.with_message_id
        (Header.with_spec_revision
          (Header.with_message_type Header.new DataMessageType_Request) 2)
        s.message_id)
      1
  let msg := Fusb302MessageBuffer.write_header Fusb302MessageBuffer.new header
  let message_id := (s.message_id + 1) % 8
  let request :=
    FixedVariableSupplyRequest.with_object_position
      (FixedVariableSupplyRequest.with_no_usb_suspend
        (FixedVariableSupplyRequest.with_operating_current
          (FixedVariableSupplyRequest.with_min_operating_current
            FixedVariableSupplyRequest.new
            (FixedSupplyPdo.max_current (pdos.getD selected_pdo 0)))
          (FixedSupplyPdo.max_current (pdos.getD selected_pdo 0)))
        true)
      ((selected_pdo + 1) % 256)
  match Fusb302MessageBuffer.write_data msg request with
  | (.error e, _) => .error e
  | (.ok _, msg) =>
    .ok ({ pdos := pdos, num_pdos := num_pdos, message_id := message_id },
         msg, selected_pdo, power)

/-- The 16-bit header held in a transmit buffer (bytes 1..2,
little-endian), as `Fusb302MessageBuffer::send` puts it on the wire. -/
def tx_header (b : Fusb302MessageBuffer) : Nat :=
  b.buffer.getD 1 0 + 256 * b.buffer.getD 2 0

/-- The first 32-bit data object held in a transmit buffer (bytes 3..6,
little-endian). -/
def tx_object (b : Fusb302MessageBuffer) : Nat :=
  u32_from_le_bytes (b.buffer.drop 3)

/-- Iterate `handle_source_capabilities` over a list of capability
payloads within one session, collecting the message-ID field of each
transmitted header (transmission stops if a send fails, which in fact
never happens). -/
def run_sends : PdSession → List (List Nat) → List Nat
  | _, [] => []
  | s, p :: ps =>
    match handle_source_capabilities s p with
    | .ok (s1, msg, _, _) => Header.message_id (tx_header msg) :: run_sends s1 ps
    | .error _ => []

/-- Build a `FixedSupplyPdo` from all its non-reserved fields by the
`with_*` setter chain from `FixedSupplyPdo::new()`. -/
def FixedSupplyPdo.build (c v pk : Nat) (epr unch drd ucc up uss drp : Bool)
    (pt : Nat) : Nat :=
  FixedSupplyPdo.with_pdo_type
    (FixedSupplyPdo.with_dual_role_power
      (FixedSupplyPdo.with_usb_suspend_supporrted
        (FixedSupplyPdo.with_unconstrainted_power
          (FixedSupplyPdo.with_usb_communications_capable
            (FixedSupplyPdo.with_dual_role_data
              (FixedSupplyPdo.with_unchunked_extended_messages_supported
                (FixedSupplyPdo.with_epr_mode_capable
                  (FixedSupplyPdo.with_peak_current
                    (FixedSupplyPdo.with_raw_voltage
                      (FixedSupplyPdo.with_raw_max_current FixedSupplyPdo.new c)
                      v)
                    pk)
                  epr)
                unch)
              drd)
            ucc)
          up)
        uss)
      drp)
    pt

/-! ## Theorems -/

/-- Claim C8: the conversion from a raw FIFO byte to the receive-token
kind is total (it returns a definite variant for every input, by type),
and for every byte the selected variant is the one whose `#[repr(u8)]`
discriminant equals the low 3 bits of the input. -/
theorem rx_token_type_from_u8_total (v : Nat) :
    RxTokenType.toU8 (RxTokenType.fromU8 v) = v % 8 := by
  have h : v % 8 < 8 := Nat.mod_lt _ (by norm_num)
  unfold RxTokenType.fromU8
  split_ifs <;> simp [RxTokenType.toU8] <;> omega

/-- Claim C10: reading the device-identity register yields
`InvalidDeviceId` exactly for the raw bytes `0x00` and `0xff`; every
other byte is accepted unchanged. -/
theorem fusb_read_id_rejects_exactly (v : Nat) (hv : v < 256) :
    (fusb_read_id v = .error .InvalidDeviceId ↔ (v = 0 ∨ v = 0xff)) ∧
    (¬(v = 0 ∨ v = 0xff) → fusb_read_id v = .ok v) := by
  unfold fusb_read_id
  split_ifs with h
  · exact ⟨⟨fun _ => h, fun _ => rfl⟩, fun hn => absurd h hn⟩
  · exact ⟨⟨fun he => by simp at he, fun hc => absurd hc h⟩, fun _ => rfl⟩

/-- Witness for C10 at the concrete bytes 0x42 and 0x00. -/
theorem fusb_read_id_rejects_exactly_witness :
    fusb_read_id 0x42 = .ok 0x42 ∧ fusb_read_id 0 = .error .InvalidDeviceId :=
  ⟨(fusb_read_id_rejects_exactly 0x42 (by norm_num)).2 (by norm_num),
   (fusb_read_id_rejects_exactly 0 (by norm_num)).1.2 (Or.inl rfl)⟩

/-- Claim C6: writing a 4-byte data object into a transmit buffer whose
length plus 4 would exceed the 31-byte capacity fails with
`Error::Index` and returns the buffer unchanged (contents and length);
a write within capacity succeeds and advances the length by exactly 4. -/
theorem write_data_capacity (b : Fusb302MessageBuffer) (object : Nat) :
    (b.len + 4 > MESSAGE_BUFFER_SIZE →
      Fusb302MessageBuffer.write_data b object = (.error .Index, b)) ∧
    (b.len + 4 ≤ MESSAGE_BUFFER_SIZE →
      (Fusb302MessageBuffer.write_data b object).1 = .ok () ∧
      (Fusb302MessageBuffer.write_data b object).2.len = b.len + 4) := by
  unfold Fusb302MessageBuffer.write_data
  constructor
  · intro h
    rw [if_pos h]
  · intro h
    rw [if_neg (by omega)]
    exact ⟨rfl, rfl⟩

/-- Witness for C6: a buffer already holding 28 data bytes (length 31)
rejects a further object unchanged, and a fresh buffer (length 3)
accepts one, reaching length 7. -/
theorem write_data_capacity_witness :
    Fusb302MessageBuffer.write_data
        { buffer := 0x43 :: List.replicate 30 0, len := 31 } 5 =
      (.error .Index, { buffer := 0x43 :: List.replicate 30 0, len := 31 }) ∧
    (Fusb302MessageBuffer.write_data Fusb302MessageBuffer.new 5).1 = .ok () ∧
    (Fusb302MessageBuffer.write_data Fusb302MessageBuffer.new 5).2.len = 3 + 4 :=
  ⟨(write_data_capacity { buffer := 0x43 :: List.replicate 30 0, len := 31 } 5).1
      (by norm_num [MESSAGE_BUFFER_SIZE]),
   (write_data_capacity Fusb302MessageBuffer.new 5).2
      (by norm_num [MESSAGE_BUFFER_SIZE, Fusb302MessageBuffer.new])⟩

/-- Claim C7: after the soft reset, the identity register is polled with
a retry budget of 5 before `SoftResetFailure` is reported.  If every one
of the 5 attempts fails, bring-up returns `SoftResetFailure` after
exactly that bounded number of attempts; if some attempt within the
bound succeeds (the earlier ones failing), the poll succeeds with the
identity byte read there. -/
theorem fusb_setup_poll_bounded (reads : Nat → Nat) :
    ((∀ k, k < 5 → ¬(fusb_read_id (reads k)).isOk) →
      fusb_setup_poll reads = .error .SoftResetFailure) ∧
    (∀ k0, k0 < 5 → (∀ j, j < k0 → ¬(fusb_read_id (reads j)).isOk) →
      (fusb_read_id (reads k0)).isOk →
      fusb_setup_poll reads = .ok (reads k0)) := by
  have e5 : fusb_setup_poll reads =
      if (fusb_read_id (reads 0)).isOk then .ok (reads 0)
      else id_poll reads 4 1 := rfl
  have e4 : id_poll reads 4 1 =
      if (fusb_read_id (reads 1)).isOk then .ok (reads 1)
      else id_poll reads 3 2 := rfl
  have e3 : id_poll reads 3 2 =
      if (fusb_read_id (reads 2)).isOk then .ok (reads 2)
      else id_poll reads 2 3 := rfl
  have e2 : id_poll reads 2 3 =
      if (fusb_read_id (reads 3)).isOk then .ok (reads 3)
      else id_poll reads 1 4 := rfl
  have e1 : id_poll reads 1 4 =
      if (fusb_read_id (reads 4)).isOk then .ok (reads 4)
      else .error .SoftResetFailure := rfl
  constructor
  · intro h
    rw [e5, if_neg (h 0 (by omega)), e4, if_neg (h 1 (by omega)),
      e3, if_neg (h 2 (by omega)), e2, if_neg (h 3 (by omega)),
      e1, if_neg (h 4 (by omega))]
  · intro k0 hk0 hprev hok
    interval_cases k0
    · rw [e5, if_pos hok]
    · rw [e5, if_neg (hprev 0 (by omega)), e4, if_pos hok]
    · rw [e5, if_neg (hprev 0 (by omega)), e4, if_neg (hprev 1 (by omega)),
        e3, if_pos hok]
    · rw [e5, if_neg (hprev 0 (by omega)), e4, if_neg (hprev 1 (by omega)),
        e3, if_neg (hprev 2 (by omega)), e2, if_pos hok]
    · rw [e5, if_neg (hprev 0 (by omega)), e4, if_neg (hprev 1 (by omega)),
        e3, if_neg (hprev 2 (by omega)), e2, if_neg (hprev 3 (by omega)),
        e1, if_pos hok]

/-- Witness for C7: with every identity read returning 0 the poll fails
after its bounded retries; with attempt 2 returning 0x24 (attempts 0 and
1 failing) it succeeds. -/
theorem fusb_setup_poll_bounded_witness :
    fusb_setup_poll (fun _ => 0) = .error .SoftResetFailure ∧
    fusb_setup_poll (fun k => if k = 2 then 0x24 else 0) = .ok 0x24 := by
  constructor
  · exact (fusb_setup_poll_bounded (fun _ => 0)).1 (by decide)
  · have h := (fusb_setup_poll_bounded (fun k => if k = 2 then 0x24 else 0)).2
      2 (by norm_num) (by decide) (by decide)
    simpa using h

/-- Claim C5: CC detection fails with `NoCcDetected` exactly when the
two comparator readings are equal; otherwise the line with the strictly
higher reading is selected as active, i.e. the final `Switches0` write
measures/terminates and the `Switches1` write transmits on that line
only, with auto-CRC enabled (`Switches0 = 0b0111`, `Switches1 = 0b0101`
when CC1 wins; `0b1011`/`0b0110` when CC2 wins). -/
theorem detect_cc_line_selects (cc1_val cc2_val : Nat) :
    (cc1_val = cc2_val →
      detect_cc_line cc1_val cc2_val = .error .NoCcDetected) ∧
    (cc1_val > cc2_val →
      detect_cc_line cc1_val cc2_val = .ok (0b0111, 0b0101)) ∧
    (cc2_val > cc1_val →
      detect_cc_line cc1_val cc2_val = .ok (0b1011, 0b0110)) ∧
    (Switches0.meas_cc1 0b0111 = true ∧ Switches0.meas_cc2 0b0111 = false ∧
      Switches1.txcc1 0b0101 = true ∧ Switches1.txcc2 0b0101 = false ∧
      Switches1.auto_crc 0b0101 = true) ∧
    (Switches0.meas_cc1 0b1011 = false ∧ Switches0.meas_cc2 0b1011 = true ∧
      Switches1.txcc1 0b0110 = false ∧ Switches1.txcc2 0b0110 = true ∧
      Switches1.auto_crc 0b0110 = true) := by
  refine ⟨?_, ?_, ?_, by decide, by decide⟩
  · intro h
    unfold detect_cc_line
    rw [if_pos h]
  · intro h
    unfold detect_cc_line
    rw [if_neg (by omega)]
    have d1 : decide (cc1_val > cc2_val) = true := by simpa using h
    have d2 : decide (cc2_val > cc1_val) = false := by simp; omega
    simp only [d1, d2]
    exact congrArg Except.ok (by decide)
  · intro h
    unfold detect_cc_line
    rw [if_neg (by omega)]
    have d1 : decide (cc1_val > cc2_val) = false := by simp; omega
    have d2 : decide (cc2_val > cc1_val) = true := by simpa using h
    simp only [d1, d2]
    exact congrArg Except.ok (by decide)

/-- Witness for C5 at the concrete readings of the spec: (2, 1) selects
CC1 and succeeds; (2, 2) reports no CC detected. -/
theorem detect_cc_line_selects_witness :
    detect_cc_line 2 1 = .ok (0b0111, 0b0101) ∧
    detect_cc_line 2 2 = .error .NoCcDetected :=
  ⟨((detect_cc_line_selects 2 1).2.1 (by norm_num)),
   ((detect_cc_line_selects 2 2).1 rfl)⟩

/-- Every field read is bounded by its declared width. -/
theorem getBits_lt (raw off w : Nat) : getBits raw off w < 2 ^ w :=
  Nat.mod_lt _ (Nat.pos_pow_of_pos w (by norm_num))

/-- A 1-bit boolean getter, converted back to a bit, recovers the field. -/
theorem toNat_bit_getter (raw off : Nat) :
    (decide (getBits raw off 1 = 1)).toNat = getBits raw off 1 := by
  have h : getBits raw off 1 < 2 := getBits_lt raw off 1
  by_cases hg : getBits raw off 1 = 1 <;> simp [hg] <;> omega

/-- Closed form of `Header.build`: the seven `with_*` writes from
`Header::new()` place each masked field at its offset. -/
theorem header_build_eq (mt : Nat) (dr : Bool) (sr : Nat) (ppr : Bool)
    (mid ndo : Nat) (ext : Bool) :
    Header.build mt dr sr ppr mid ndo ext =
      mt % 32 + 32 * dr.toNat + 64 * (sr % 4) + 256 * ppr.toNat +
        512 * (mid % 8) + 4096 * (ndo % 8) + 32768 * ext.toNat := by
  have hdr : dr.toNat ≤ 1 := Bool.toNat_le dr
  have hppr : ppr.toNat ≤ 1 := Bool.toNat_le ppr
  have hext : ext.toNat ≤ 1 := Bool.toNat_le ext
  simp only [Header.build, Header.with_message_type, Header.with_data_rate,
    Header.with_spec_revision, Header.with_port_power_role,
    Header.with_message_id, Header.with_num_data_objects,
    Header.with_extended, Header.new, setBits]
  norm_num
  omega

set_option maxHeartbeats 1600000 in
/-- Closed form of `FixedSupplyPdo.build`: the `with_*` writes from
`FixedSupplyPdo::new()` place each masked field at its offset (the
reserved bit 22 stays 0). -/
theorem pdo_build_eq (c v pk : Nat)
    (epr unch drd ucc up uss drp : Bool) (pt : Nat) :
    FixedSupplyPdo.build c v pk epr unch drd ucc up uss drp pt =
      c % 1024 + 1024 * (v % 1024) + 1048576 * (pk % 4) +
        8388608 * epr.toNat + 16777216 * unch.toNat + 33554432 * drd.toNat +
        67108864 * ucc.toNat + 134217728 * up.toNat + 268435456 * uss.toNat +
        536870912 * drp.toNat + 1073741824 * (pt % 4) := by
  have h1 : epr.toNat ≤ 1 := Bool.toNat_le epr
  have h2 : unch.toNat ≤ 1 := Bool.toNat_le unch
  have h3 : drd.toNat ≤ 1 := Bool.toNat_le drd
  have h4 : ucc.toNat ≤ 1 := Bool.toNat_le ucc
  have h5 : up.toNat ≤ 1 := Bool.toNat_le up
  have h6 : uss.toNat ≤ 1 := Bool.toNat_le uss
  have h7 : drp.toNat ≤ 1 := Bool.toNat_le drp
  simp only [FixedSupplyPdo.build, FixedSupplyPdo.with_raw_max_current,
    FixedSupplyPdo.with_raw_voltage, FixedSupplyPdo.with_peak_current,
    FixedSupplyPdo.with_epr_mode_capable,
    FixedSupplyPdo.with_unchunked_extended_messages_supported,
    FixedSupplyPdo.with_dual_role_data,
    FixedSupplyPdo.with_usb_communications_capable,
    FixedSupplyPdo.with_unconstrainted_power,
    FixedSupplyPdo.with_usb_suspend_supporrted,
    FixedSupplyPdo.with_dual_role_power, FixedSupplyPdo.with_pdo_type,
    FixedSupplyPdo.new, setBits]
  norm_num
  omega

/-- `Bool.toNat` is injective. -/
theorem bool_toNat_inj (a b : Bool) (h : a.toNat = b.toNat) : a = b := by
  cases a <;> cases b <;> simp_all

set_option maxHeartbeats 1600000 in
/-- Claim C4: for the codec's message types — the 16-bit `Header` and
the 32-bit `FixedSupplyPdo` — building a value from field values within
their declared widths and reading the fields back returns the originals,
and for the `Header` (which has no reserved bits) rebuilding a 16-bit
raw value from its decoded fields returns the raw value; the raw round
trip is therefore lossless, and idempotent because a rebuilt value
decodes to the same fields. -/
theorem codec_round_trip
    (mt sr mid ndo : Nat) (dr ppr ext : Bool) (raw : Nat)
    (c v pk pt : Nat) (epr unch drd ucc up uss drp : Bool)
    (hmt : mt < 32) (hsr : sr < 4) (hmid : mid < 8) (hndo : ndo < 8)
    (hraw : raw < 65536)
    (hc : c < 1024) (hv : v < 1024) (hpk : pk < 4) (hpt : pt < 4) :
    (Header.message_type (Header.build mt dr sr ppr mid ndo ext) = mt ∧
      Header.data_rate (Header.build mt dr sr ppr mid ndo ext) = dr ∧
      Header.spec_revision (Header.build mt dr sr ppr mid ndo ext) = sr ∧
      Header.port_power_role (Header.build mt dr sr ppr mid ndo ext) = ppr ∧
      Header.message_id (Header.build mt dr sr ppr mid ndo ext) = mid ∧
      Header.num_data_objects (Header.build mt dr sr ppr mid ndo ext) = ndo ∧
      Header.extended (Header.build mt dr sr ppr mid ndo ext) = ext) ∧
    (Header.build (Header.message_type raw) (Header.data_rate raw)
        (Header.spec_revision raw) (Header.port_power_role raw)
        (Header.message_id raw) (Header.num_data_objects raw)
        (Header.extended raw) = raw) ∧
    (FixedSupplyPdo.raw_max_current
        (FixedSupplyPdo.build c v pk epr unch drd ucc up uss drp pt) = c ∧
      FixedSupplyPdo.raw_voltage
        (FixedSupplyPdo.build c v pk epr unch drd ucc up uss drp pt) = v ∧
      FixedSupplyPdo.peak_current
        (FixedSupplyPdo.build c v pk epr unch drd ucc up uss drp pt) = pk ∧
      FixedSupplyPdo.epr_mode_capable
        (FixedSupplyPdo.build c v pk epr unch drd ucc up uss drp pt) = epr ∧
      FixedSupplyPdo.unchunked_extended_messages_supported
        (FixedSupplyPdo.build c v pk epr unch drd ucc up uss drp pt) = unch ∧
      FixedSupplyPdo.dual_role_data
        (FixedSupplyPdo.build c v pk epr unch drd ucc up uss drp pt) = drd ∧
      FixedSupplyPdo.usb_communications_capable
        (FixedSupplyPdo.build c v pk epr unch drd ucc up uss drp pt) = ucc ∧
      FixedSupplyPdo.unconstrainted_power
        (FixedSupplyPdo.build c v pk epr unch drd ucc up uss drp pt) = up ∧
      FixedSupplyPdo.usb_suspend_supporrted
        (FixedSupplyPdo.build c v pk epr unch drd ucc up uss drp pt) = uss ∧
      FixedSupplyPdo.dual_role_power
        (FixedSupplyPdo.build c v pk epr unch drd ucc up uss drp pt) = drp ∧
      FixedSupplyPdo.pdo_type
        (FixedSupplyPdo.build c v pk epr unch drd ucc up uss drp pt) = pt) := by
  have hdr : dr.toNat ≤ 1 := Bool.toNat_le dr
  have hppr : ppr.toNat ≤ 1 := Bool.toNat_le ppr
  have hext : ext.toNat ≤ 1 := Bool.toNat_le ext
  have h1 : epr.toNat ≤ 1 := Bool.toNat_le epr
  have h2 : unch.toNat ≤ 1 := Bool.toNat_le unch
  have h3 : drd.toNat ≤ 1 := Bool.toNat_le drd
  have h4 : ucc.toNat ≤ 1 := Bool.toNat_le ucc
  have h5 : up.toNat ≤ 1 := Bool.toNat_le up
  have h6 : uss.toNat ≤ 1 := Bool.toNat_le uss
  have h7 : drp.toNat ≤ 1 := Bool.toNat_le drp
  rw [header_build_eq, pdo_build_eq]
  refine ⟨⟨?_, ?_, ?_, ?_, ?_, ?_, ?_⟩, ?_, ?_, ?_, ?_, ?_, ?_, ?_, ?_, ?_,
    ?_, ?_, ?_⟩
  · simp only [Header.message_type, getBits]; norm_num; omega
  · refine bool_toNat_inj _ _ ?_
    simp only [Header.data_rate]
    rw [toNat_bit_getter]
    simp only [getBits]; norm_num; omega
  · simp only [Header.spec_revision, getBits]; norm_num; omega
  · refine bool_toNat_inj _ _ ?_
    simp only [Header.port_power_role]
    rw [toNat_bit_getter]
    simp only [getBits]; norm_num; omega
  · simp only [Header.message_id, getBits]; norm_num; omega
  · simp only [Header.num_data_objects, getBits]; norm_num; omega
  · refine bool_toNat_inj _ _ ?_
    simp only [Header.extended]
    rw [toNat_bit_getter]
    simp only [getBits]; norm_num; omega
  · rw [header_build_eq]
    simp only [Header.data_rate, Header.port_power_role, Header.extended,
      toNat_bit_getter]
    simp only [Header.message_type, Header.spec_revision, Header.message_id,
      Header.num_data_objects, getBits]
    norm_num
    omega
  · simp only [FixedSupplyPdo.raw_max_current, getBits]; norm_num; omega
  · simp only [FixedSupplyPdo.raw_voltage, getBits]; norm_num; omega
  · simp only [FixedSupplyPdo.peak_current, getBits]; norm_num; omega
  · refine bool_toNat_inj _ _ ?_
    simp only [FixedSupplyPdo.epr_mode_capable]
    rw [toNat_bit_getter]
    simp only [getBits]; norm_num; omega
  · refine bool_toNat_inj _ _ ?_
    simp only [FixedSupplyPdo.unchunked_extended_messages_supported]
    rw [toNat_bit_getter]
    simp only [getBits]; norm_num; omega
  · refine bool_toNat_inj _ _ ?_
    simp only [FixedSupplyPdo.dual_role_data]
    rw [toNat_bit_getter]
    simp only [getBits]; norm_num; omega
  · refine bool_toNat_inj _ _ ?_
    simp only [FixedSupplyPdo.usb_communications_capable]
    rw [toNat_bit_getter]
    simp only [getBits]; norm_num; omega
  · refine bool_toNat_inj _ _ ?_
    simp only [FixedSupplyPdo.unconstrainted_power]
    rw [toNat_bit_getter]
    simp only [getBits]; norm_num; omega
  · refine bool_toNat_inj _ _ ?_
    simp only [FixedSupplyPdo.usb_suspend_supporrted]
    rw [toNat_bit_getter]
    simp only [getBits]; norm_num; omega
  · refine bool_toNat_inj _ _ ?_
    simp only [FixedSupplyPdo.dual_role_power]
    rw [toNat_bit_getter]
    simp only [getBits]; norm_num; omega
  · simp only [FixedSupplyPdo.pdo_type, getBits]; norm_num; omega

/-- `RxTokenType::from` returns `Sop` exactly when the low 3 bits of its
input are `0b111`. -/
theorem fromU8_eq_sop_iff (x : Nat) :
    RxTokenType.fromU8 x = RxTokenType.Sop ↔ x % 8 = 7 := by
  have h : x % 8 < 8 := Nat.mod_lt _ (by norm_num)
  unfold RxTokenType.fromU8
  split_ifs <;> simp_all <;> omega

/-- The framing loop's token test: `RxToken::token` is `Sop` exactly
when bits 7:5 of the FIFO byte are `0b111`. -/
theorem token_eq_sop_iff (t : Nat) :
    RxToken.token t = RxTokenType.Sop ↔ t / 32 % 8 = 7 := by
  rw [RxToken.token, fromU8_eq_sop_iff]
  simp only [getBits]
  norm_num

/-- One-step unfolding of the receive-framing loop on a nonempty
stream. -/
theorem rx_framing_cons (t : Nat) (rest : List Nat) :
    rx_framing (t :: rest) =
      if RxToken.token t = RxTokenType.Sop then
        (rest.getD 0 0 + 256 * rest.getD 1 0,
          (rest.drop 2).take
              (Header.num_data_objects (rest.getD 0 0 + 256 * rest.getD 1 0) * 4) ++
            List.replicate
              (Header.num_data_objects (rest.getD 0 0 + 256 * rest.getD 1 0) * 4 -
                (rest.drop 2).length) 0) ::
          rx_framing
            (rest.drop
              (2 + Header.num_data_objects (rest.getD 0 0 + 256 * rest.getD 1 0) * 4 + 4))
      else rx_framing rest := by
  rw [rx_framing]

/-- The receive-framing loop on the empty stream (`rx_empty` set). -/
theorem rx_framing_nil : rx_framing [] = [] := by
  rw [rx_framing]

/-- Claim C2 (amended): the receive-framing loop skips each FIFO byte
whose token field — bits 7:5, not the low 3 bits — is not the plain
start-of-packet kind; on a start-of-packet token it reads a 2-byte
little-endian header, then exactly `num_data_objects × 4` payload bytes
(none when the count is zero), then reads and discards a 4-byte CRC,
dispatching exactly one decoded message — the header together with that
payload — per SOP token before continuing on the rest of the stream. -/
theorem rx_framing_spec :
    (∀ (t : Nat) (s : List Nat), RxToken.token t ≠ RxTokenType.Sop →
      rx_framing (t :: s) = rx_framing s) ∧
    (∀ (t h0 h1 : Nat) (payload crc s1 : List Nat),
      RxToken.token t = RxTokenType.Sop →
      payload.length = Header.num_data_objects (h0 + 256 * h1) * 4 →
      crc.length = 4 →
      rx_framing (t :: h0 :: h1 :: (payload ++ (crc ++ s1))) =
        (h0 + 256 * h1, payload) :: rx_framing s1) := by
  constructor
  · intro t s h
    rw [rx_framing_cons, if_neg h]
  · intro t h0 h1 payload crc s1 hsop hp hcrc
    rw [rx_framing_cons, if_pos hsop]
    simp only [List.getD_cons_zero, List.getD_cons_succ, List.drop_succ_cons,
      List.drop_zero]
    rw [← hp, List.take_left, Nat.sub_eq_zero_of_le (by simp), List.replicate_zero,
      List.append_nil]
    have hdrop : (payload ++ (crc ++ s1)).drop (2 + payload.length + 2) = s1 := by
      have he : 2 + payload.length + 2 = payload.length + 4 := by omega
      rw [he, ← List.drop_drop, List.drop_left]
      exact List.drop_left' hcrc
    rw [hdrop]

/-- Witness for C2 on the spec's concrete stream: one non-SOP token
(0x12), then an SOP byte (0xE0, bits 7:5 = 0b111), the header 0x1042
(object count 1) little-endian, 4 payload bytes and 4 CRC bytes —
exactly one message, equal to that header and payload, is dispatched. -/
theorem rx_framing_spec_witness :
    rx_framing [18, 224, 66, 16, 9, 9, 9, 9, 1, 2, 3, 4] = [(4162, [9, 9, 9, 9])] := by
  have hskip := rx_framing_spec.1 18 [224, 66, 16, 9, 9, 9, 9, 1, 2, 3, 4] (by decide)
  have hframe := rx_framing_spec.2 224 66 16 [9, 9, 9, 9] [1, 2, 3, 4] []
    (by decide) (by decide) (by decide)
  rw [hskip]
  simpa [rx_framing_nil] using hframe

/-- Counterexample to claim C2 as stated: the claim keys the
start-of-packet test to the LOW 3 bits of the token byte.  The byte
0x07 has low 3 bits `0b111` (`RxTokenType::from 7 = Sop`), so under the
claim the stream `[0x07, 0x00, 0x00, 0, 0, 0, 0]` would be SOP + header
0x0000 (zero objects) + 4-byte CRC and dispatch exactly one message;
the code instead reads the token from bits 7:5 (`RxToken::token`),
skips every byte of this stream, and dispatches nothing. -/
theorem rx_framing_claim_cex :
    RxTokenType.fromU8 7 = RxTokenType.Sop ∧
    RxToken.token 7 ≠ RxTokenType.Sop ∧
    rx_framing [7, 0, 0, 0, 0, 0, 0] = [] := by
  refine ⟨by decide, by decide, ?_⟩
  simp [rx_framing_cons, rx_framing_nil, RxToken.token, RxTokenType.fromU8, getBits]

/-- Witness for C4 at concrete field values: a header built from
message type 2, spec revision 2, message ID 5, one data object reads
back those fields; the raw header 0x1A82 survives the decode/rebuild
round trip; a 9 V / 2 A fixed-supply offer reads back its raw fields. -/
theorem codec_round_trip_witness :
    Header.message_id (Header.build 2 false 2 false 5 1 false) = 5 ∧
    Header.build (Header.message_type 6786) (Header.data_rate 6786)
      (Header.spec_revision 6786) (Header.port_power_role 6786)
      (Header.message_id 6786) (Header.num_data_objects 6786)
      (Header.extended 6786) = 6786 ∧
    FixedSupplyPdo.raw_voltage
      (FixedSupplyPdo.build 200 180 0 false false false true false false false 0) =
        180 := by
  have h := codec_round_trip 2 2 5 1 false false false 6786 200 180 0 0
    false false false true false false false
    (by norm_num) (by norm_num) (by norm_num) (by norm_num) (by norm_num)
    (by norm_num) (by norm_num) (by norm_num) (by norm_num)
  exact ⟨h.1.2.2.2.2.1, h.2.1, h.2.2.2.1⟩

/-- Invariant of the selection fold in `Pd::handle_source_capabilities`,
for any starting index `n` and accumulator `(sel, pw)`: the final power
never decreases; either the accumulator is returned unchanged or the
result points at a qualifying offer (voltage at most 18000 mV) whose
power it carries, strictly above `pw`; the final power dominates every
qualifying offer's power; and whenever an update happened, the returned
index is at most the index of any qualifying offer achieving the final
power (the strict `>` keeps the earliest maximum). -/
theorem select_fold_inv (l : List Nat) : ∀ (n sel pw : Nat),
    pw ≤ ((List.enumFrom n l).foldl select_pdo_step (sel, pw)).2 ∧
    ((List.enumFrom n l).foldl select_pdo_step (sel, pw) = (sel, pw) ∨
      ∃ k, ∃ hk : k < l.length,
        ((List.enumFrom n l).foldl select_pdo_step (sel, pw)).1 = n + k ∧
        FixedSupplyPdo.voltage (l.get ⟨k, hk⟩) ≤ 18000 ∧
        ((List.enumFrom n l).foldl select_pdo_step (sel, pw)).2 =
          FixedSupplyPdo.power (l.get ⟨k, hk⟩) ∧
        pw < ((List.enumFrom n l).foldl select_pdo_step (sel, pw)).2) ∧
    (∀ j (hj : j < l.length), FixedSupplyPdo.voltage (l.get ⟨j, hj⟩) ≤ 18000 →
      FixedSupplyPdo.power (l.get ⟨j, hj⟩) ≤
        ((List.enumFrom n l).foldl select_pdo_step (sel, pw)).2) ∧
    (∀ j (hj : j < l.length), FixedSupplyPdo.voltage (l.get ⟨j, hj⟩) ≤ 18000 →
      FixedSupplyPdo.power (l.get ⟨j, hj⟩) =
        ((List.enumFrom n l).foldl select_pdo_step (sel, pw)).2 →
      pw < ((List.enumFrom n l).foldl select_pdo_step (sel, pw)).2 →
      ((List.enumFrom n l).foldl select_pdo_step (sel, pw)).1 ≤ n + j) := by
  induction l with
  | nil =>
    intro n sel pw
    refine ⟨le_refl _, Or.inl rfl, ?_, ?_⟩
    · intro j hj
      exact absurd hj (by simp)
    · intro j hj
      exact absurd hj (by simp)
  | cons x xs ih =>
    intro n sel pw
    by_cases hc : FixedSupplyPdo.voltage x ≤ 18000 ∧ FixedSupplyPdo.power x > pw
    · have hstep : (List.enumFrom n (x :: xs)).foldl select_pdo_step (sel, pw) =
          (List.enumFrom (n + 1) xs).foldl select_pdo_step (n, FixedSupplyPdo.power x) := by
        simp [List.enumFrom, List.foldl_cons, select_pdo_step, hc]
      rw [hstep]
      obtain ⟨A, B, C, D⟩ := ih (n + 1) n (FixedSupplyPdo.power x)
      refine ⟨le_trans (le_of_lt hc.2) A, ?_, ?_, ?_⟩
      · rcases B with hB | ⟨k, hk, h1, h2, h3, h4⟩
        · right
          refine ⟨0, by simp, ?_, by simpa using hc.1, ?_, ?_⟩
          · simp [hB]
          · rw [hB]
            simp
          · rw [hB]
            exact hc.2
        · right
          refine ⟨k + 1, by simpa using Nat.succ_lt_succ hk, by omega,
            by simpa using h2, by simpa using h3, lt_trans hc.2 h4⟩
      · intro j hj hQ
        cases j with
        | zero => simpa using A
        | succ j =>
          have hj2 : j < xs.length := by simpa using Nat.lt_of_succ_lt_succ hj
          have := C j hj2 (by simpa using hQ)
          simpa using this
      · intro j hj hQ hP hlt
        cases j with
        | zero =>
          rcases B with hB | ⟨k, hk, h1, h2, h3, h4⟩
          · rw [hB]
            omega
          · simp at hP
            omega
        | succ j =>
          have hj2 : j < xs.length := by simpa using Nat.lt_of_succ_lt_succ hj
          rcases B with hB | ⟨k, hk, h1, h2, h3, h4⟩
          · rw [hB]
            omega
          · have := D j hj2 (by simpa using hQ) (by simpa using hP) h4
            omega
    · have hstep : (List.enumFrom n (x :: xs)).foldl select_pdo_step (sel, pw) =
          (List.enumFrom (n + 1) xs).foldl select_pdo_step (sel, pw) := by
        simp only [List.enumFrom, List.foldl_cons, select_pdo_step]
        rw [if_neg hc]
      rw [hstep]
      obtain ⟨A, B, C, D⟩ := ih (n + 1) sel pw
      refine ⟨A, ?_, ?_, ?_⟩
      · rcases B with hB | ⟨k, hk, h1, h2, h3, h4⟩
        · left
          exact hB
        · right
          exact ⟨k + 1, by simpa using Nat.succ_lt_succ hk, by omega,
            by simpa using h2, by simpa using h3, h4⟩
      · intro j hj hQ
        cases j with
        | zero =>
          have hxle : FixedSupplyPdo.power x ≤ pw := by
            rcases Nat.lt_or_ge pw (FixedSupplyPdo.power x) with h | h
            · exact absurd ⟨by simpa using hQ, h⟩ hc
            · exact h
          calc FixedSupplyPdo.power ((x :: xs).get ⟨0, hj⟩) = FixedSupplyPdo.power x := by simp
            _ ≤ pw := hxle
            _ ≤ _ := A
        | succ j =>
          have hj2 : j < xs.length := by simpa using Nat.lt_of_succ_lt_succ hj
          have := C j hj2 (by simpa using hQ)
          simpa using this
      · intro j hj hQ hP hlt
        cases j with
        | zero =>
          have hxle : FixedSupplyPdo.power x ≤ pw := by
            rcases Nat.lt_or_ge pw (FixedSupplyPdo.power x) with h | h
            · exact absurd ⟨by simpa using hQ, h⟩ hc
            · exact h
          simp at hP
          omega
        | succ j =>
          have hj2 : j < xs.length := by simpa using Nat.lt_of_succ_lt_succ hj
          have := D j hj2 (by simpa using hQ) (by simpa using hP) hlt
          omega

/-- Closed form of the store fold of `Pd::handle_source_capabilities`:
starting at slot `i`, it returns the count `i + |decoded|` and the array
with `decoded` overwriting slots `i ..` (the rest untouched). -/
theorem store_pdos_go (decoded : List Nat) : ∀ (arr : List Nat) (i : Nat),
    i + decoded.length ≤ arr.length →
    decoded.foldl (fun acc pdo => (acc.1 + 1, acc.2.set acc.1 pdo)) (i, arr) =
      (i + decoded.length, arr.take i ++ decoded ++ arr.drop (i + decoded.length)) := by
  induction decoded with
  | nil =>
    intro arr i h
    simp
  | cons d ds ih =>
    intro arr i h
    have hi : i < arr.length := by
      simp at h
      omega
    simp only [List.foldl_cons]
    rw [ih (arr.set i d) (i + 1) (by simp; simp at h; omega)]
    rw [List.set_eq_take_cons_drop d hi]
    have hlen : (List.take i arr).length = i := by
      rw [List.length_take]
      omega
    refine Prod.ext ?_ ?_
    · simp
      omega
    · show (List.take i arr ++ d :: List.drop (i + 1) arr).take (i + 1) ++ ds ++
          (List.take i arr ++ d :: List.drop (i + 1) arr).drop (i + 1 + ds.length) =
        List.take i arr ++ (d :: ds) ++ List.drop (i + (d :: ds).length) arr
      rw [List.take_append_eq_append_take, List.drop_append_eq_append_drop, hlen]
      rw [@List.take_of_length_le _ (i + 1) (List.take i arr) (by rw [hlen]; omega)]
      rw [@List.drop_eq_nil_of_le _ (List.take i arr) (i + 1 + ds.length)
        (by rw [hlen]; omega)]
      have h1 : i + 1 - i = 1 := by omega
      have h2 : i + 1 + ds.length - i = ds.length + 1 := by omega
      rw [h1, h2]
      have ht1 : (d :: List.drop (i + 1) arr).take 1 = [d] := rfl
      rw [ht1, List.drop_succ_cons, List.drop_drop]
      have h4 : i + (d :: ds).length = i + 1 + ds.length := by
        simp
        omega
      rw [h4]
      have h5 : i + 1 + ds.length = ds.length + (i + 1) := by omega
      rw [h5]
      simp

/-- When no offer qualifies with strictly positive power, the selection
fold returns its initial accumulator `(0, 0)`. -/
theorem select_pdo_none (l : List Nat)
    (h : ∀ j (hj : j < l.length),
      ¬(FixedSupplyPdo.voltage (l.get ⟨j, hj⟩) ≤ 18000 ∧
        0 < FixedSupplyPdo.power (l.get ⟨j, hj⟩))) :
    select_pdo l = (0, 0) := by
  obtain ⟨A, B, C, D⟩ := select_fold_inv l 0 0 0
  have hsel : select_pdo l = (List.enumFrom 0 l).foldl select_pdo_step (0, 0) := rfl
  rcases B with hB | ⟨k, hk, h1, h2, h3, h4⟩
  · rw [hsel, hB]
  · exact absurd ⟨h2, by omega⟩ (h k hk)

/-- Claim C1 (amended): when at least one offer has voltage at most
18000 mV AND strictly positive computed power, the fold selects a
qualifying offer of maximal power among the qualifying offers, earliest
in case of ties; and on the spec's offers {5 V/3 A, 9 V/2 A, 20 V/1 A}
(raw PDOs 102700, 184520, 409700, powers {15 W, 18 W, 20 W}) it selects
index 1, the 9 V/2 A offer, at 18000 mW. -/
theorem select_pdo_highest_power (l : List Nat)
    (hex : ∃ j, ∃ hj : j < l.length,
      FixedSupplyPdo.voltage (l.get ⟨j, hj⟩) ≤ 18000 ∧
      0 < FixedSupplyPdo.power (l.get ⟨j, hj⟩)) :
    (∃ k, ∃ hk : k < l.length,
      select_pdo l = (k, FixedSupplyPdo.power (l.get ⟨k, hk⟩)) ∧
      FixedSupplyPdo.voltage (l.get ⟨k, hk⟩) ≤ 18000 ∧
      (∀ j (hj : j < l.length), FixedSupplyPdo.voltage (l.get ⟨j, hj⟩) ≤ 18000 →
        FixedSupplyPdo.power (l.get ⟨j, hj⟩) ≤ FixedSupplyPdo.power (l.get ⟨k, hk⟩)) ∧
      (∀ j (hj : j < l.length), FixedSupplyPdo.voltage (l.get ⟨j, hj⟩) ≤ 18000 →
        FixedSupplyPdo.power (l.get ⟨j, hj⟩) = FixedSupplyPdo.power (l.get ⟨k, hk⟩) →
        k ≤ j)) ∧
    select_pdo [102700, 184520, 409700] = (1, 18000) := by
  refine ⟨?_, by decide⟩
  obtain ⟨j0, hj0, hQ0, hP0⟩ := hex
  obtain ⟨A, B, C, D⟩ := select_fold_inv l 0 0 0
  have hsel : select_pdo l = (List.enumFrom 0 l).foldl select_pdo_step (0, 0) := rfl
  have hpos : 0 < ((List.enumFrom 0 l).foldl select_pdo_step (0, 0)).2 :=
    lt_of_lt_of_le hP0 (C j0 hj0 hQ0)
  rcases B with hB | ⟨k, hk, h1, h2, h3, h4⟩
  · rw [hB] at hpos
    exact absurd hpos (by simp)
  · refine ⟨k, hk, ?_, h2, ?_, ?_⟩
    · rw [hsel]
      refine Prod.ext ?_ ?_
      · simpa using h1
      · simpa using h3
    · intro j hj hQ
      have hCj := C j hj hQ
      rw [h3] at hCj
      exact hCj
    · intro j hj hQ hP
      have hD := D j hj hQ (by rw [hP]; exact h3.symm) h4
      omega

/-- Counterexample to claim C1 as stated: with offers
[20 V/3 A (raw 409900, power 60 W, voltage above the 18 V cap),
5 V/0 A (raw 102400, qualifying but power 0)], the fold returns
`(0, 0)`, i.e. it selects index 0 — an offer whose voltage exceeds
18000 mV — even though a qualifying offer (index 1) exists; so the
selection is not always "the highest-power offer among those whose
voltage does not exceed 18000 mV".  The strict `> 0` power comparison
never fires when every qualifying offer has zero computed power. -/
theorem select_pdo_claim_cex :
    select_pdo [409900, 102400] = (0, 0) ∧
    18000 < FixedSupplyPdo.voltage 409900 ∧
    FixedSupplyPdo.voltage 102400 ≤ 18000 := by
  refine ⟨by decide, by decide, by decide⟩

/-- Witness for C1 at the spec's concrete offer list. -/
theorem select_pdo_highest_power_witness :
    select_pdo [102700, 184520, 409700] = (1, 18000) :=
  (select_pdo_highest_power [102700, 184520, 409700]
    ⟨1, by norm_num, by decide, by decide⟩).2

/-- The header and first data object read back from a transmit buffer
built by `write_header` then `write_data` are the written values,
truncated to their wire widths (u16 and u32). -/
theorem tx_bytes_write (h r : Nat) :
    tx_header (Fusb302MessageBuffer.write_data
      (Fusb302MessageBuffer.write_header Fusb302MessageBuffer.new h) r).2 = h % 65536 ∧
    tx_object (Fusb302MessageBuffer.write_data
      (Fusb302MessageBuffer.write_header Fusb302MessageBuffer.new h) r).2 =
      r % 4294967296 := by
  constructor <;>
  · simp [Fusb302MessageBuffer.write_data, Fusb302MessageBuffer.write_header,
      Fusb302MessageBuffer.new, MESSAGE_BUFFER_SIZE, tx_header, tx_object,
      u32_from_le_bytes, List.set, List.replicate]
    omega

/-- `write_data` succeeds whenever the buffer has room. -/
theorem write_data_fst_ok (b : Fusb302MessageBuffer) (o : Nat)
    (h : b.len + 4 ≤ MESSAGE_BUFFER_SIZE) :
    (Fusb302MessageBuffer.write_data b o).1 = .ok () := by
  unfold Fusb302MessageBuffer.write_data
  rw [if_neg (by omega)]

/-- Pair form of `write_data` on success, for rewriting its `match`. -/
theorem write_data_ok_pair (b : Fusb302MessageBuffer) (o : Nat)
    (h : b.len + 4 ≤ MESSAGE_BUFFER_SIZE) :
    Fusb302MessageBuffer.write_data b o =
      (.ok (), (Fusb302MessageBuffer.write_data b o).2) :=
  Prod.ext (write_data_fst_ok b o h) rfl

/-- The `object_position` field reads back its 4-bit-masked write. -/
theorem object_position_with (raw v : Nat) :
    FixedVariableSupplyRequest.object_position
      (FixedVariableSupplyRequest.with_object_position raw v) = v % 16 := by
  simp [FixedVariableSupplyRequest.object_position,
    FixedVariableSupplyRequest.with_object_position, setBits, getBits]
  omega

/-- `object_position` (bits 31:28) is unaffected by u32 truncation. -/
theorem object_position_mod32 (r : Nat) :
    FixedVariableSupplyRequest.object_position (r % 4294967296) =
      FixedVariableSupplyRequest.object_position r := by
  simp [FixedVariableSupplyRequest.object_position, getBits]
  omega

/-- The current fields of the request object built by
`handle_source_capabilities`: both `raw_operating_current` and
`raw_min_operating_current` read back the offer's mA current divided by
10, masked to the 10-bit field. -/
theorem req_current_fields (m v : Nat) :
    FixedVariableSupplyRequest.raw_operating_current
      (FixedVariableSupplyRequest.with_object_position
        (FixedVariableSupplyRequest.with_no_usb_suspend
          (FixedVariableSupplyRequest.with_operating_current
            (FixedVariableSupplyRequest.with_min_operating_current
              FixedVariableSupplyRequest.new m) m) true) v) = m / 10 % 1024 ∧
    FixedVariableSupplyRequest.raw_min_operating_current
      (FixedVariableSupplyRequest.with_object_position
        (FixedVariableSupplyRequest.with_no_usb_suspend
          (FixedVariableSupplyRequest.with_operating_current
            (FixedVariableSupplyRequest.with_min_operating_current
              FixedVariableSupplyRequest.new m) m) true) v) = m / 10 % 1024 := by
  have g28op : ∀ x w : Nat, getBits (setBits x 28 4 w) 10 10 = getBits x 10 10 := by
    intro x w
    simp [setBits, getBits]
    omega
  have g24op : ∀ x w : Nat, getBits (setBits x 24 1 w) 10 10 = getBits x 10 10 := by
    intro x w
    simp [setBits, getBits]
    omega
  have g10op : ∀ x w : Nat, getBits (setBits x 10 10 w) 10 10 = w % 1024 := by
    intro x w
    simp [setBits, getBits]
    omega
  have g28mn : ∀ x w : Nat, getBits (setBits x 28 4 w) 0 10 = getBits x 0 10 := by
    intro x w
    simp [setBits, getBits]
    omega
  have g24mn : ∀ x w : Nat, getBits (setBits x 24 1 w) 0 10 = getBits x 0 10 := by
    intro x w
    simp [setBits, getBits]
    omega
  have g10mn : ∀ x w : Nat, getBits (setBits x 10 10 w) 0 10 = getBits x 0 10 := by
    intro x w
    simp [setBits, getBits]
    omega
  have g0mn : ∀ w : Nat, getBits (setBits 0 0 10 w) 0 10 = w % 1024 := by
    intro w
    simp [setBits, getBits]
  simp only [FixedVariableSupplyRequest.raw_operating_current,
    FixedVariableSupplyRequest.raw_min_operating_current,
    FixedVariableSupplyRequest.with_object_position,
    FixedVariableSupplyRequest.with_no_usb_suspend,
    FixedVariableSupplyRequest.with_operating_current,
    FixedVariableSupplyRequest.with_min_operating_current,
    FixedVariableSupplyRequest.with_raw_operating_current,
    FixedVariableSupplyRequest.with_raw_min_operating_current,
    FixedVariableSupplyRequest.new]
  rw [g28op, g24op, g10op, g28mn, g24mn, g10mn, g0mn]
  omega

/-- The request's current fields are unaffected by u32 truncation. -/
theorem req_current_mod32 (r : Nat) :
    FixedVariableSupplyRequest.raw_operating_current (r % 4294967296) =
      FixedVariableSupplyRequest.raw_operating_current r ∧
    FixedVariableSupplyRequest.raw_min_operating_current (r % 4294967296) =
      FixedVariableSupplyRequest.raw_min_operating_current r := by
  constructor <;>
  · simp [FixedVariableSupplyRequest.raw_operating_current,
      FixedVariableSupplyRequest.raw_min_operating_current, getBits]
    omega

/-- Claim C9: if the decoded capabilities list (at most 7 offers, the
session's array holding 7 slots) contains no offer with voltage at most
18000 mV and strictly positive computed power — including the empty
list — the selection fold still yields index 0 and
`handle_source_capabilities` succeeds anyway: a request is built from
the first offer slot (both current fields come from slot 0) and
transmitted with object position 1; no 'no acceptable offer' error
exists. -/
theorem handle_source_capabilities_no_acceptable (s : PdSession) (payload : List Nat)
    (hlen : s.pdos.length = 7)
    (hcount : (decode_pdos payload).length ≤ 7)
    (hnone : ∀ j (hj : j < (decode_pdos payload).length),
      ¬(FixedSupplyPdo.voltage ((decode_pdos payload).get ⟨j, hj⟩) ≤ 18000 ∧
        0 < FixedSupplyPdo.power ((decode_pdos payload).get ⟨j, hj⟩))) :
    ∃ s1 msg,
      handle_source_capabilities s payload = .ok (s1, msg, 0, 0) ∧
      FixedVariableSupplyRequest.object_position (tx_object msg) = 1 ∧
      FixedVariableSupplyRequest.raw_operating_current (tx_object msg) =
        FixedSupplyPdo.max_current (s1.pdos.getD 0 0) / 10 % 1024 ∧
      FixedVariableSupplyRequest.raw_min_operating_current (tx_object msg) =
        FixedSupplyPdo.max_current (s1.pdos.getD 0 0) / 10 % 1024 := by
  have hstore : store_pdos s.pdos (decode_pdos payload) =
      ((decode_pdos payload).length,
        decode_pdos payload ++ s.pdos.drop (decode_pdos payload).length) := by
    unfold store_pdos
    have hgo := store_pdos_go (decode_pdos payload) s.pdos 0 (by omega)
    simpa using hgo
  have htake : (decode_pdos payload ++
      s.pdos.drop (decode_pdos payload).length).take (decode_pdos payload).length =
      decode_pdos payload := List.take_left _ _
  have hsel := select_pdo_none (decode_pdos payload) hnone
  unfold handle_source_capabilities
  rw [hstore]
  simp only [htake, hsel]
  rw [write_data_ok_pair _ _
    (by simp [Fusb302MessageBuffer.write_header, Fusb302MessageBuffer.new,
      MESSAGE_BUFFER_SIZE])]
  refine ⟨_, _, rfl, ?_, ?_, ?_⟩
  · rw [(tx_bytes_write _ _).2, object_position_mod32, object_position_with]
  · rw [(tx_bytes_write _ _).2, (req_current_mod32 _).1, (req_current_fields _ _).1]
  · rw [(tx_bytes_write _ _).2, (req_current_mod32 _).2, (req_current_fields _ _).2]

/-- Witness for C9: on a fresh session and an empty capabilities
payload, negotiation succeeds with selected index 0 and a request whose
object position is 1. -/
theorem handle_source_capabilities_no_acceptable_witness :
    Except.map
      (fun r => (r.2.2.1, FixedVariableSupplyRequest.object_position (tx_object r.2.1)))
      (handle_source_capabilities PdSession.new []) = .ok (0, 1) := by
  obtain ⟨s1, msg, heq, hop, _, _⟩ := handle_source_capabilities_no_acceptable
    PdSession.new [] (by simp [PdSession.new]) (by simp [decode_pdos, array_chunks4])
    (by intro j hj; simp [decode_pdos, array_chunks4] at hj)
  rw [heq]
  simp [Except.map, hop]

/-- `handle_source_capabilities` always succeeds (the single 4-byte
request always fits the transmit buffer), returning the updated session
(stored offers, new count, incremented masked message ID), the transmit
buffer holding the request header and object, and the selection fold's
result. -/
theorem handle_source_capabilities_eq (s : PdSession) (p : List Nat) :
    handle_source_capabilities s p = .ok
      ({ pdos := (store_pdos s.pdos (decode_pdos p)).2,
         num_pdos := (store_pdos s.pdos (decode_pdos p)).1,
         message_id := (s.message_id + 1) % 8 },
       (Fusb302MessageBuffer.write_data
         (Fusb302MessageBuffer.write_header Fusb302MessageBuffer.new
           (Header.with_num_data_objects
             (Header.with_message_id
               (Header.with_spec_revision
                 (Header.with_message_type Header.new DataMessageType_Request) 2)
               s.message_id) 1))
         (FixedVariableSupplyRequest.with_object_position
           (FixedVariableSupplyRequest.with_no_usb_suspend
             (FixedVariableSupplyRequest.with_operating_current
               (FixedVariableSupplyRequest.with_min_operating_current
                 FixedVariableSupplyRequest.new
                 (FixedSupplyPdo.max_current
                   ((store_pdos s.pdos (decode_pdos p)).2.getD
                     (select_pdo ((store_pdos s.pdos (decode_pdos p)).2.take
                       (store_pdos s.pdos (decode_pdos p)).1)).1 0)))
               (FixedSupplyPdo.max_current
                 ((store_pdos s.pdos (decode_pdos p)).2.getD
                   (select_pdo ((store_pdos s.pdos (decode_pdos p)).2.take
                     (store_pdos s.pdos (decode_pdos p)).1)).1 0)))
             true)
           (((select_pdo ((store_pdos s.pdos (decode_pdos p)).2.take
               (store_pdos s.pdos (decode_pdos p)).1)).1 + 1) % 256))).2,
       (select_pdo ((store_pdos s.pdos (decode_pdos p)).2.take
         (store_pdos s.pdos (decode_pdos p)).1)).1,
       (select_pdo ((store_pdos s.pdos (decode_pdos p)).2.take
         (store_pdos s.pdos (decode_pdos p)).1)).2) := by
  simp only [handle_source_capabilities]
  split
  next e heq =>
    have hfst := congrArg Prod.fst heq
    rw [write_data_fst_ok _ _
      (by simp [Fusb302MessageBuffer.write_header, Fusb302MessageBuffer.new,
        MESSAGE_BUFFER_SIZE])] at hfst
    simp at hfst
  next a msg heq =>
    have hsnd := congrArg Prod.snd heq
    simp only at hsnd
    rw [← hsnd]

/-- The header's `message_id` field is unaffected by u16 truncation. -/
theorem header_message_id_mod (h : Nat) :
    Header.message_id (h % 65536) = Header.message_id h := by
  simp [Header.message_id, getBits]
  omega

/-- The `message_id` field of the request header built by
`handle_source_capabilities` is the session counter masked to 3 bits. -/
theorem request_header_id (mid : Nat) :
    Header.message_id
      (Header.with_num_data_objects
        (Header.with_message_id
          (Header.with_spec_revision
            (Header.with_message_type Header.new DataMessageType_Request) 2)
          mid) 1) = mid % 8 := by
  simp [Header.message_id, Header.with_num_data_objects, Header.with_message_id,
    Header.with_spec_revision, Header.with_message_type, Header.new,
    DataMessageType_Request, setBits, getBits]
  omega

/-- One send step: the transmitted header carries `message_id % 8` and
the session continues with the counter incremented modulo 8. -/
theorem run_sends_cons (s : PdSession) (p : List Nat) (ps : List (List Nat)) :
    run_sends s (p :: ps) = s.message_id % 8 ::
      run_sends { pdos := (store_pdos s.pdos (decode_pdos p)).2,
                  num_pdos := (store_pdos s.pdos (decode_pdos p)).1,
                  message_id := (s.message_id + 1) % 8 } ps := by
  simp only [run_sends, handle_source_capabilities_eq]
  rw [(tx_bytes_write _ _).1, header_message_id_mod, request_header_id]

/-- The n-th transmitted message ID of a session starting at counter
`c` is `(c + n) % 8`. -/
theorem run_sends_getD (ps : List (List Nat)) :
    ∀ (s : PdSession) (n : Nat), n < (run_sends s ps).length →
      (run_sends s ps).getD n 0 = (s.message_id + n) % 8 := by
  induction ps with
  | nil =>
    intro s n hn
    simp [run_sends] at hn
  | cons p ps ih =>
    intro s n hn
    rw [run_sends_cons] at hn ⊢
    cases n with
    | zero => simp
    | succ n =>
      rw [List.getD_cons_succ]
      have hn2 : n < (run_sends (PdSession.mk (store_pdos s.pdos (decode_pdos p)).2
          (store_pdos s.pdos (decode_pdos p)).1 ((s.message_id + 1) % 8)) ps).length := by
        simp at hn
        omega
      rw [ih _ n hn2]
      simp
      omega

/-- Every capabilities payload produces exactly one transmitted
request. -/
theorem run_sends_length (ps : List (List Nat)) :
    ∀ s : PdSession, (run_sends s ps).length = ps.length := by
  induction ps with
  | nil => intro s; rfl
  | cons p ps ih =>
    intro s
    rw [run_sends_cons]
    simp [ih]

/-- Claim C3: within one session, the ID placed in the n-th transmitted
request header is the session counter value before the n-th send — the
counter starts at `s.message_id` (0 for a fresh session, and always
kept below 8 by the `& 0b111` mask) and the n-th header carries
`(s.message_id + n) % 8`; consequently successive transmitted IDs
increase by 1 modulo 8, wrapping from 7 to 0. -/
theorem run_sends_message_id_seq (ps : List (List Nat)) (s : PdSession) (n : Nat) :
    (n < (run_sends s ps).length →
      (run_sends s ps).getD n 0 = (s.message_id + n) % 8) ∧
    (n + 1 < (run_sends s ps).length →
      (run_sends s ps).getD (n + 1) 0 = ((run_sends s ps).getD n 0 + 1) % 8) := by
  constructor
  · exact run_sends_getD ps s n
  · intro hn1
    have h1 := run_sends_getD ps s n (by omega)
    have h2 := run_sends_getD ps s (n + 1) hn1
    rw [h1, h2]
    omega

/-- Witness for C3: over nine sends of a fresh session the 8th header
carries ID 7 and the 9th wraps to `(7 + 1) % 8 = 0`. -/
theorem run_sends_message_id_seq_witness :
    (run_sends PdSession.new [[], [], [], [], [], [], [], [], []]).getD 7 0 = 7 ∧
    (run_sends PdSession.new [[], [], [], [], [], [], [], [], []]).getD 8 0 =
      ((run_sends PdSession.new [[], [], [], [], [], [], [], [], []]).getD 7 0 + 1) % 8 := by
  have hlen : (run_sends PdSession.new [[], [], [], [], [], [], [], [], []]).length = 9 := by
    rw [run_sends_length]
    rfl
  have h7 := (run_sends_message_id_seq [[], [], [], [], [], [], [], [], []]
    PdSession.new 7).1 (by omega)
  have h8 := (run_sends_message_id_seq [[], [], [], [], [], [], [], [], []]
    PdSession.new 7).2 (by omega)
  refine ⟨?_, h8⟩
  rw [h7]
  simp [PdSession.new]
